import Mathlib

/-!
Shallow embedding of the `code.soquee.net/mux` HTTP request multiplexer
(Go) together with theorems about its registration, matching, dispatch
and path-normalization logic.

Sources embedded below:
* `mux.go` — `ServeMux`, `handler` (the matching walk and dispatch
  policy), `parseParam`, `nextPart`, `cleanPath`.
* `node.go` — `node`, `node.match`, `addValue`.
* `options.go` — `Option`, `NotFound`, `Options`, `MethodNotAllowed`,
  `Handle`/`HandleFunc` (route registration).
* `norm.go` — `WithParam`, `Path`.
* `handlers.go` — `defCodeWriter`, `notFoundHandler`.
* `params.go` — `ParamInfo`, `Param`.

Strings are modelled as lists of characters (`Str`); all strings that
appear in the router are ASCII.  Go `http.Handler` values are modelled
by numeric identifiers: the router never inspects a handler, it only
stores and returns them.  Fatal configuration errors (Go `panic` during
registration) are modelled with `Except.error`.
-/

namespace Mux

/-- Strings as explicit lists of characters. -/
abbrev Str := List Char

/-- The route component types of the router: the `typStatic`, `typWild`
(`"path"`), `typString`, `typUint`, `typInt` and `typFloat` constants of
`mux.go`.  The constants form a closed enumeration, modelled as an
inductive type.  (`node.go` also mentions an identifier `typPath` in one
`switch` arm; that constant is defined nowhere in the package and no
registered tree can carry it, so the arm is dead code and is not
modelled.) -/
inductive Typ where
  | static
  | wild
  | str
  | uint
  | int
  | float
deriving DecidableEq, Repr

/-- A captured parameter value: the dynamic value stored in
`ParamInfo.Value` (`string`, `int64`, `uint64` or `float64` in Go).
Floating-point values are represented by their raw text; no theorem in
this file depends on float semantics. -/
inductive PVal where
  | str (s : Str)
  | int (i : Int)
  | uint (n : Nat)
  | float (raw : Str)
deriving DecidableEq, Repr

/-- `ParamInfo` from `params.go`.  `value = none` models a `nil`
`Value` field, which in Go happens exactly when the parameter was
absent (the zero `ParamInfo`).  The zero value of the Go `Type` string
field is represented by `Typ.static`; nothing ever inspects the type
of an absent parameter. -/
structure ParamInfo where
  value : Option PVal
  raw : Str
  name : Str
  typ : Typ
  offset : Nat
deriving DecidableEq, Repr

/-- The request context: the value stored under the `ctxRoute{}` key
and the values stored under `ctxParam(name)` keys.  `context.WithValue`
shadows earlier entries, so parameter entries are prepended and lookup
takes the first hit. -/
structure Ctx where
  route : Option Str
  params : List (Str × ParamInfo)
deriving DecidableEq, Repr

/-- An `*http.Request`, restricted to the parts the router reads:
method, URL path and context. -/
structure Request where
  method : Str
  urlPath : Str
  ctx : Ctx
deriving DecidableEq, Repr

/-- A node of the route tree (`node` in `node.go`, including the
`route` field set by registration in `options.go`).  `handlers` is the
method-keyed handler map (handlers as numeric identifiers). -/
structure Node where
  name : Str
  typ : Typ
  handlers : List (Str × Nat)
  route : Str
  child : List Node

/-- `nextPart` from `mux.go`: split off the path text before the first
slash; the remainder excludes the slash itself.  With no slash the
whole input is the part and the remainder is empty. -/
def splitSeg : Str → Str × Str
  | [] => ([], [])
  | c :: rest =>
    if c = '/' then ([], rest)
    else
      let p := splitSeg rest
      (c :: p.1, p.2)

/-- `strings.TrimPrefix(path, "/")`: drop at most one leading slash. -/
def dropLeadingSlash : Str → Str
  | [] => []
  | c :: rest => if c = '/' then rest else c :: rest

/-- Uppercase an ASCII string (`strings.ToUpper` restricted to the
ASCII method names the router sees). -/
def toUpperStr (s : Str) : Str := s.map Char.toUpper

/-- Numeric value of a string of decimal digits. -/
def decValue (s : Str) : Nat :=
  s.foldl (fun acc c => acc * 10 + (c.toNat - 48)) 0

/-- `strconv.ParseUint(s, 10, 64)`: nonempty, decimal digits only,
value at most `2^64 - 1`; `none` models a parse error. -/
def goParseUint (s : Str) : Option Nat :=
  if s.isEmpty then none
  else if s.all Char.isDigit then
    let n := decValue s
    if n ≤ 2 ^ 64 - 1 then some n else none
  else none

/-- `strconv.ParseInt(s, 10, 64)`: an optional leading sign followed by
a string accepted by `ParseUint`, with the signed 64-bit range check. -/
def goParseInt (s : Str) : Option Int :=
  match s with
  | [] => none
  | c :: rest =>
    let (neg, digits) :=
      if c = '+' then (false, rest)
      else if c = '-' then (true, rest)
      else (false, s)
    match goParseUint digits with
    | none => none
    | some un =>
      if neg then
        if un > 2 ^ 63 then none else some (-(un : Int))
      else
        if un ≥ 2 ^ 63 then none else some (un : Int)

/-- Exponent syntax of a base-10 float: optional sign, then at least
one digit. -/
def expOk (s : Str) : Bool :=
  match s with
  | [] => false
  | c :: rest =>
    if c = '+' ∨ c = '-' then !rest.isEmpty && rest.all Char.isDigit
    else s.all Char.isDigit

/-- Mantissa syntax of a base-10 float: digits with at most one dot
and at least one digit. -/
def mantissaOk (s : Str) : Bool :=
  s.any Char.isDigit &&
    s.all (fun c => Char.isDigit c || c = '.') &&
    (s.filter (fun c => c = '.')).length ≤ 1

/-- Syntactic acceptance of `strconv.ParseFloat(s, 64)`: optional sign,
then a decimal mantissa with optional exponent, or the case-insensitive
`inf`/`infinity` forms (`nan` is accepted unsigned).  Hexadecimal float
syntax and the rejection of out-of-range magnitudes are not modelled;
no theorem in this file depends on the float case. -/
def goParseFloatOk (s : Str) : Bool :=
  match s with
  | [] => false
  | c :: rest =>
    let (signed, body) :=
      if c = '+' ∨ c = '-' then (true, rest) else (false, s)
    let lower := body.map Char.toLower
    if lower = "inf".data ∨ lower = "infinity".data then true
    else if !signed && lower = "nan".data then true
    else
      let m := body.takeWhile (fun ch => ¬(ch = 'e' ∨ ch = 'E'))
      let rest2 := body.dropWhile (fun ch => ¬(ch = 'e' ∨ ch = 'E'))
      match rest2 with
      | [] => mantissaOk m
      | _ :: e => mantissaOk m && expOk e

/-- Backtrack step of Go `path.Clean` for a `..` element: move the
write cursor back one, walk it back to the previous slash (stopping at
`dotdot`), and truncate the buffer to the cursor — the popped segment
and its separating slash are both dropped. -/
def popSeg (out : Str) (dotdot : Nat) : Str :=
  popWhile out
where
  popWhile : Str → Str
    | [] => []
    | l =>
      -- The cursor `w` of the Go loop sits on `l`'s last character; the
      -- loop stops on the separating slash (or at `dotdot`) and truncates
      -- the buffer to `w`, excluding the character under the cursor.
      if l.length - 1 > dotdot ∧ l.getLast? ≠ some '/' then popWhile l.dropLast
      else l.dropLast
  termination_by l => l.length
  decreasing_by
    simp only [List.length_dropLast]
    omega

theorem dropWhile_length_le {α : Type} (p : α → Bool) (l : List α) :
    (l.dropWhile p).length ≤ l.length := by
  induction l with
  | nil => simp [List.dropWhile]
  | cons a t ih =>
    cases h : p a <;> simp [List.dropWhile, h] <;> omega

/-- The element-processing loop of Go `path.Clean` (`path` package):
the second `Str` argument is the unread input, the first the output
buffer, `dotdot` the index up to which `..` may not backtrack. -/
def cleanLoop (rooted : Bool) (dotdot : Nat) : Str → Str → Str
  | out, [] => out
  | out, c :: t =>
    if h1 : c = '/' then
      -- empty path element
      cleanLoop rooted dotdot out t
    else if h2 : c = '.' ∧ (t = [] ∨ t.head? = some '/') then
      -- "." element
      cleanLoop rooted dotdot out t
    else if h3 : c = '.' ∧ t.head? = some '.' ∧ (t.tail = [] ∨ t.tail.head? = some '/') then
      -- ".." element
      let out2 :=
        if out.length > dotdot then popSeg out dotdot
        else if ¬rooted then
          (if out ≠ [] then out ++ ['/'] else out) ++ ['.', '.']
        else out
      let dotdot2 :=
        if out.length > dotdot then dotdot
        else if ¬rooted then out2.length
        else dotdot
      cleanLoop rooted dotdot2 out2 t.tail
    else
      -- real path element: add slash if needed, then copy the element
      let out2 :=
        if (rooted ∧ out.length ≠ 1) ∨ (¬rooted ∧ out.length ≠ 0) then out ++ ['/']
        else out
      cleanLoop rooted dotdot (out2 ++ (c :: t).takeWhile (fun ch => ch ≠ '/'))
        ((c :: t).dropWhile (fun ch => ch ≠ '/'))
  termination_by _ rest => rest.length
  decreasing_by
  · simp only [List.length_cons]; omega
  · simp only [List.length_cons]; omega
  · simp only [List.length_tail, List.length_cons]
    rcases h3 with ⟨hc, hh, _⟩
    cases t with
    | nil => simp at hh
    | cons a b => simp only [List.length_cons]; omega
  · rw [List.dropWhile_cons_of_pos (by simpa using h1)]
    simp only [List.length_cons]
    have := dropWhile_length_le (fun ch => decide (ch ≠ '/')) t
    omega

/-- Go `path.Clean`, translated from the `path` package. -/
def pathClean (p : Str) : Str :=
  if p = [] then ['.']
  else
    let rooted := p.head? = some '/'
    let (start, dotdot) : Str × Nat := if rooted then (['/'], 1) else ([], 0)
    let rest := if rooted then p.tail else p
    let out := cleanLoop rooted dotdot start rest
    if out = [] then ['.'] else out

/-- `cleanPath` from `mux.go`: root the path, clean it, and restore a
trailing slash removed by `path.Clean`. -/
def cleanPath (p : Str) : Str :=
  if p = [] then ['/']
  else
    let p2 := if p.head? ≠ some '/' then '/' :: p else p
    let np := pathClean p2
    if p2.getLast? = some '/' ∧ np ≠ ['/'] then np ++ ['/'] else np

/-- The opening brace character of the pattern grammar. -/
def lbrace : Char := Char.ofNat 123

/-- The closing brace character of the pattern grammar. -/
def rbrace : Char := Char.ofNat 125

/-- The recognized type keywords of `parseParam` (the `switch` at the
end of `parseParam` in `mux.go`). -/
def recognizedTyp (t : Str) : Option Typ :=
  if t = "int".data then some .int
  else if t = "uint".data then some .uint
  else if t = "float".data then some .float
  else if t = "string".data then some .str
  else if t = "path".data then some .wild
  else none

/-- `parseParam` from `mux.go`: classify one route segment as a
`(name, type)` pair.  `Except.error` models the `panic` on an invalid
type keyword, and the out-of-range index access on an empty pattern. -/
def parseParam (pattern : Str) : Except String (Str × Typ) :=
  match pattern with
  | [] => .error "mux: index out of range (empty pattern)"
  | c0 :: _ =>
    -- Static route components are not patterns and must match exactly.
    if c0 ≠ lbrace ∨ pattern.getLast? ≠ some rbrace then .ok (pattern, .static)
    -- An empty brace pair is an unnamed string variable.
    else if pattern.length = 2 then .ok ([], .str)
    else
      let idx0 := (pattern.findIdx? (fun c => c = ' ')).getD 0
      let typ := (pattern.drop (idx0 + 1)).take (pattern.length - 1 - (idx0 + 1))
      let idx := if idx0 = 0 then 1 else idx0
      let name := (pattern.drop 1).take (idx - 1)
      match recognizedTyp typ with
      | some t => .ok (name, t)
      | none => .error "invalid type"

/-- `addValue` from `node.go`: attach a `ParamInfo` to the request
context under the parameter name, unless the capture is anonymous. -/
def addValue (r : Request) (name : Str) (typ : Typ) (raw : Str) (offset : Nat)
    (val : PVal) : Request :=
  if name ≠ [] then
    { r with ctx := { r.ctx with
        params := (name, ⟨some val, raw, name, typ, offset⟩) :: r.ctx.params } }
  else r

/-- `node.match` from `node.go`: match one node against the front of
`path`, returning the matched part, the remaining path and the request
(with any captured parameter added).  An empty part means no match.
Wildcard nodes consume the entire remainder before the path is split;
the remaining types split off the next segment first. -/
def Node.matchPath (n : Node) (path : Str) (offset : Nat) (r : Request) :
    Str × Str × Request :=
  match n.typ with
  | .wild => (path, [], addValue r n.name .wild path offset (.str path))
  | .static =>
    let pr := splitSeg path
    if n.name = pr.1 then (pr.1, pr.2, r) else ([], path, r)
  | .str =>
    let pr := splitSeg path
    (pr.1, pr.2, addValue r n.name .str pr.1 offset (.str pr.1))
  | .uint =>
    let pr := splitSeg path
    match goParseUint pr.1 with
    | none => ([], path, r)
    | some v => (pr.1, pr.2, addValue r n.name .uint pr.1 offset (.uint v))
  | .int =>
    let pr := splitSeg path
    match goParseInt pr.1 with
    | none => ([], path, r)
    | some v => (pr.1, pr.2, addValue r n.name .int pr.1 offset (.int v))
  | .float =>
    let pr := splitSeg path
    if goParseFloatOk pr.1 then
      (pr.1, pr.2, addValue r n.name .float pr.1 offset (.float pr.1))
    else ([], path, r)

theorem splitSeg_snd_length_le (s : Str) : (splitSeg s).2.length ≤ s.length := by
  induction s with
  | nil => simp [splitSeg]
  | cons c rest ih =>
    by_cases h : c = '/' <;> simp [splitSeg, h] <;> omega

theorem splitSeg_snd_length_lt (s : Str) (hs : s ≠ []) :
    (splitSeg s).2.length < s.length := by
  cases s with
  | nil => simp at hs
  | cons c rest =>
    by_cases h : c = '/' <;> simp [splitSeg, h]
    have := splitSeg_snd_length_le rest
    omega

theorem splitSeg_fst_ne_nil (s : Str) (h : (splitSeg s).1 ≠ []) : s ≠ [] := by
  intro he
  subst he
  simp [splitSeg] at h

/-- A non-matching child leaves the path no longer than before. -/
theorem matchPath_remain_le (n : Node) (path : Str) (off : Nat) (r : Request) :
    (n.matchPath path off r).2.1.length ≤ path.length := by
  unfold Node.matchPath
  rcases n with ⟨name, typ, hs, rt, ch⟩
  cases typ <;> simp only
  · split <;> simp [splitSeg_snd_length_le]
  · simp
  · simp [splitSeg_snd_length_le]
  · split <;> simp [splitSeg_snd_length_le]
  · split <;> simp [splitSeg_snd_length_le]
  · split <;> simp [splitSeg_snd_length_le]

/-- A matching child with a nonempty remainder strictly shrinks the
path. -/
theorem matchPath_remain_lt (n : Node) (path : Str) (off : Nat) (r : Request)
    (hpart : (n.matchPath path off r).1 ≠ [])
    (hrem : (n.matchPath path off r).2.1 ≠ []) :
    (n.matchPath path off r).2.1.length < path.length := by
  have hpath : path ≠ [] := by
    intro he
    subst he
    apply hpart
    unfold Node.matchPath
    rcases n with ⟨name, typ, hs, rt, ch⟩
    cases typ <;> simp [splitSeg, goParseUint, goParseInt, goParseFloatOk]
  revert hpart hrem
  unfold Node.matchPath
  rcases n with ⟨name, typ, hs, rt, ch⟩
  cases typ <;> simp only
  · split <;> intro h1 h2 <;> simp_all [splitSeg_snd_length_lt path hpath]
  · intro h1 h2
    simp at h2
  · intro h1 h2
    exact splitSeg_snd_length_lt path hpath
  · split <;> intro h1 h2 <;> simp_all [splitSeg_snd_length_lt path hpath]
  · split <;> intro h1 h2 <;> simp_all [splitSeg_snd_length_lt path hpath]
  · split <;> intro h1 h2 <;> simp_all [splitSeg_snd_length_lt path hpath]

/-- The `ServeMux` of `mux.go`.  `notFound` holds the identifier of the
configured not-found handler, `methodNotAllowed` is `none` when that
handler was set to `nil`, and `options` records whether the OPTIONS
hook (`mux.options`, a function value in Go) is non-`nil`. -/
structure ServeMux where
  node : Node
  notFound : Nat
  methodNotAllowed : Option Nat
  options : Bool

/-- The result of `ServeMux.handler`: the returned `http.Handler`
together with the (possibly parameter-extended) request.  `options`
carries the node whose method set the default OPTIONS handler
enumerates; `redirect` is the canonicalization redirect. -/
inductive Outcome where
  | redirect (url : Str)
  | handler (h : Nat) (req : Request)
  | options (n : Node) (req : Request)
  | methodNotAllowed (req : Request)
  | notFound (req : Request)

/-- Lookup in a method-keyed handler map. -/
def lookupH (hs : List (Str × Nat)) (m : Str) : Option Nat :=
  (hs.find? (fun p => p.1 = m)).map (fun p => p.2)

/-- Store the matched node's route template on the request context
(`context.WithValue(r.Context(), ctxRoute\x7b\x7d, route)`). -/
def withRoute (r : Request) (route : Str) : Request :=
  { r with ctx := { r.ctx with route := some route } }

/-- Dispatch at a matched static child (`mux.go` lines 207-220): exact
method hit, else the OPTIONS hook, else the method-not-allowed handler
— note that the code gates the latter on the **root** node's handler
map (`len(mux.node.handlers) > 0`), not the matched child's — else
not-found. -/
def dispatchStatic (mux : ServeMux) (child : Node) (r : Request) : Outcome :=
  match lookupH child.handlers r.method with
  | some h => .handler h (withRoute r child.route)
  | none =>
    if r.method = "OPTIONS".data ∧ mux.options then .options child r
    else if mux.methodNotAllowed.isSome ∧
        (mux.options ∨ mux.node.handlers.length > 0) then .methodNotAllowed r
    else .notFound r

/-- Dispatch at a matched dynamic child (`mux.go` lines 174-188): as
`dispatchStatic`, but the method-not-allowed condition checks the
matched child's own handler map. -/
def dispatchDynamic (mux : ServeMux) (child0 : Node) (r : Request) : Outcome :=
  match lookupH child0.handlers r.method with
  | some h => .handler h (withRoute r child0.route)
  | none =>
    if r.method = "OPTIONS".data ∧ mux.options then .options child0 r
    else if mux.methodNotAllowed.isSome ∧
        (mux.options ∨ child0.handlers.length > 0) then .methodNotAllowed r
    else .notFound r

/-- One step of the static-children scan: either a final outcome or a
descent into a matched child with path remaining. -/
inductive Step where
  | done (o : Outcome)
  | descend (child : Node) (remain : Str) (offset : Nat) (req : Request)

/-- The `for _, child := range node.child` scan of `mux.go` lines
195-227: try each child in order; a child returning an empty part does
not match (the loop continues with the returned remainder as path), a
match with nothing left dispatches, and a match with path remaining
descends.  When no child matches the walk fails (`mux.go` line 230). -/
def scanChildren (mux : ServeMux) : List Node → Str → Nat → Request → Step
  | [], _path, _off, r => .done (.notFound r)
  | child :: rest, path, off, r =>
    let m := child.matchPath path off r
    if m.1.isEmpty then scanChildren mux rest m.2.1 (off + 1) m.2.2
    else if m.2.1.isEmpty then .done (dispatchStatic mux child m.2.2)
    else .descend child m.2.1 (off + 1) m.2.2

theorem scanChildren_descend_lt (mux : ServeMux) (cs : List Node) (path : Str)
    (off : Nat) (r : Request) (c : Node) (rem : Str) (off2 : Nat) (r2 : Request)
    (h : scanChildren mux cs path off r = .descend c rem off2 r2) :
    rem.length < path.length := by
  induction cs generalizing path off r with
  | nil => simp [scanChildren] at h
  | cons child rest ih =>
    rw [scanChildren] at h
    split at h
    · have hle := matchPath_remain_le child path off r
      have := ih _ _ _ h
      omega
    · split at h
      · simp at h
      · rename_i hp hr
        simp only [Step.descend.injEq] at h
        obtain ⟨_, h2, _, _⟩ := h
        subst h2
        exact matchPath_remain_lt child path off r
          (by simpa using hp) (by simpa using hr)

/-- Whether the walk takes the variable-route branch at this node:
`len(node.child) == 1 && node.child[0].typ != typStatic` (`mux.go`
line 162). -/
def dynOnlyChild : List Node → Option Node
  | [c] => if c.typ = .static then none else some c
  | _ => none

/-- The `nodeloop` walk of `mux.go` lines 159-233. -/
def handlerLoop (mux : ServeMux) (node : Node) (path : Str) (off : Nat)
    (r : Request) : Outcome :=
  match dynOnlyChild node.child with
  | some child0 =>
    let m := child0.matchPath path off r
    if m.1.isEmpty then .notFound m.2.2
    else if m.2.1.isEmpty then dispatchDynamic mux child0 m.2.2
    else handlerLoop mux child0 m.2.1 (off + 1) m.2.2
  | none =>
    match hs : scanChildren mux node.child path off r with
    | .done o => o
    | .descend child remain off2 r2 => handlerLoop mux child remain off2 r2
  termination_by path.length
  decreasing_by
  · rename_i hp hr
    exact matchPath_remain_lt child0 path off r (by simpa using hp) (by simpa using hr)
  · exact scanChildren_descend_lt mux node.child path off r child remain off2 r2 hs

/-- `ServeMux.handler` after canonicalization (`mux.go` lines 137-233):
strip the leading slash, handle a request for the root node, otherwise
walk the tree. -/
def muxRoute (mux : ServeMux) (path : Str) (r : Request) : Outcome :=
  let path2 := dropLeadingSlash path
  if path2.isEmpty then
    match lookupH mux.node.handlers r.method with
    | some h => .handler h (withRoute r mux.node.route)
    | none =>
      if r.method = "OPTIONS".data ∧ mux.options then .options mux.node r
      else if mux.methodNotAllowed.isSome ∧
          (mux.options ∨ mux.node.handlers.length > 0) then .methodNotAllowed r
      else .notFound r
  else handlerLoop mux mux.node path2 1 r

/-- `ServeMux.handler` from `mux.go`: canonicalize the path for
non-CONNECT requests (redirecting when canonicalization changes it),
then match.  The redirect target keeps only the path of the rebuilt
URL. -/
def muxHandler (mux : ServeMux) (r : Request) : Outcome :=
  if r.method = "CONNECT".data then muxRoute mux r.urlPath r
  else
    let path := cleanPath r.urlPath
    if path ≠ r.urlPath then .redirect path
    else muxRoute mux path r

/-- Set a method's handler in a handler map (`handlers[method] = h`). -/
def setHandler (hs : List (Str × Nat)) (m : Str) (h : Nat) : List (Str × Nat) :=
  match hs with
  | [] => [(m, h)]
  | (k, v) :: rest => if k = m then (m, h) :: rest else (k, v) :: setHandler rest m h

/-- The `pathloop` body of `Handle` in `options.go`, one segment at a
time: parse the segment, reject a non-terminal wildcard, check
compatibility with the first existing child, then reuse the child with
the same name (registering or descending) or append a fresh node.
`full` is the whole registered pattern (leading slash stripped), stored
as the `route` template on the terminal node. -/
def insertRoute (method full : Str) (h : Nat) (n : Node) (part remain : Str) :
    Except String Node :=
  match parseParam part with
  | .error e => .error e
  | .ok (name, typ) =>
    if typ = .wild ∧ remain ≠ [] then
      .error "wildcards must be the last component in a route"
    else
      -- If there are already children, check that this segment is
      -- compatible with them (the check inspects `pointer.child[0]`).
      let conflict : Bool :=
        match n.child with
        | [] => false
        | child0 :: _ =>
          (typ ≠ .static ∧ child0.typ ≠ typ) ∨
          (typ ≠ .static ∧ child0.name ≠ name) ∨
          (typ = .static ∧ child0.typ ≠ typ)
      if conflict then .error "conflicting type or variable name"
      else
        match n.child.findIdx? (fun c => c.name = name) with
        | some i =>
          let c := n.child.getD i ⟨[], .static, [], [], []⟩
          if hrem : remain.isEmpty then
            match lookupH c.handlers method with
            | none =>
              let c2 := { c with route := full, handlers := setHandler c.handlers method h }
              .ok { n with child := n.child.set i c2 }
            | some _ => .error "route already registered"
          else
            let pr := splitSeg remain
            match insertRoute method full h c pr.1 pr.2 with
            | .error e => .error e
            | .ok c2 => .ok { n with child := n.child.set i c2 }
        | none =>
          if hrem : remain.isEmpty then
            .ok { n with child := n.child ++ [⟨name, typ, [(method, h)], full, []⟩] }
          else
            let pr := splitSeg remain
            match insertRoute method full h ⟨name, typ, [], [], []⟩ pr.1 pr.2 with
            | .error e => .error e
            | .ok c2 => .ok { n with child := n.child ++ [c2] }
  termination_by remain.length
  decreasing_by
  · exact splitSeg_snd_length_lt remain (by simpa using hrem)
  · exact splitSeg_snd_length_lt remain (by simpa using hrem)

/-- `Handle` from `options.go`: uppercase the method, reject unclean
patterns, register the root pattern directly on the root node, and
otherwise insert the pattern segment by segment.  `Except.error` models
the registration `panic`s. -/
def Handle (method route : Str) (h : Nat) (m : ServeMux) : Except String ServeMux :=
  let method2 := toUpperStr method
  if cleanPath route ≠ route then
    .error "route is unclean, make sure it is rooted"
  else
    let r := route.drop 1
    if r.isEmpty then
      match lookupH m.node.handlers method2 with
      | some _ => .error "route already registered"
      | none =>
        .ok { m with node := { m.node with
          route := r, handlers := setHandler m.node.handlers method2 h } }
    else
      let pr := splitSeg r
      match insertRoute method2 r h m.node pr.1 pr.2 with
      | .error e => .error e
      | .ok n2 => .ok { m with node := n2 }

/-- A configuration option (`Option` in `options.go`), restricted to
the constructors the package exports: `Handle`/`HandleFunc`,
`NotFound`, `Options` and `MethodNotAllowed`.  `NotFound` stores the
identifier of the user handler (the default-status wrapping is
modelled separately, on the handler side); `Options f` with `f = nil`
disables the hook; `MethodNotAllowed nil` disables that handler. -/
inductive Opt where
  | handle (method route : Str) (h : Nat)
  | notFoundOpt (h : Nat)
  | optionsOpt (enabled : Bool)
  | methodNotAllowedOpt (o : Option Nat)

/-- Apply one option to a mux under construction. -/
def applyOpt (m : ServeMux) : Opt → Except String ServeMux
  | .handle method route h => Handle method route h m
  | .notFoundOpt h => .ok { m with notFound := h }
  | .optionsOpt b => .ok { m with options := b }
  | .methodNotAllowedOpt o => .ok { m with methodNotAllowed := o }

/-- Identifier of the default not-found handler (`http.NotFound`). -/
def defaultNotFound : Nat := 0

/-- Identifier of the default method-not-allowed handler. -/
def defaultMethodNotAllowed : Nat := 1

/-- `New` from `mux.go` before options are applied: a static root node
with an empty handler map, the default not-found and
method-not-allowed handlers, and the OPTIONS hook enabled
(`defOptions`). -/
def New : ServeMux :=
  { node := ⟨"/".data, .static, [], [], []⟩
    notFound := defaultNotFound
    methodNotAllowed := some defaultMethodNotAllowed
    options := true }

/-- `New(opts...)`: fold the options over the fresh mux; the first
configuration error aborts (a Go `panic` unwinds `New`). -/
def newMux (opts : List Opt) : Except String ServeMux :=
  opts.foldlM applyOpt New

/-- `Param` from `params.go`: look the name up in the context; a
missing parameter yields the zero `ParamInfo` (whose `value` is
`none`), via the comma-ok type assertion. -/
def Param (r : Request) (name : Str) : ParamInfo :=
  match r.ctx.params.find? (fun p => p.1 = name) with
  | some p => p.2
  | none => ⟨none, [], [], .static, 0⟩

/-- `WithParam` from `norm.go`: shadow a route parameter with a new
string value; if the parameter does not exist the request is returned
unaltered. -/
def WithParam (r : Request) (name val : Str) : Request :=
  let pinfo := Param r name
  match pinfo.value with
  | none => r
  | some _ =>
    let pinfo2 := { pinfo with value := some (.str val), raw := val, typ := .str }
    { r with ctx := { r.ctx with params := (name, pinfo2) :: r.ctx.params } }

/-- The `errNoRoute` error value of `norm.go`. -/
def errNoRoute : String := "mux: no route was found in the context"

/-- The `errNoParam` error value of `norm.go`. -/
def errNoParam : String := "mux: context was missing an expected parameter"

/-- Result of `Path`: a rendered path, a returned `error`, or a Go
`panic` (`panicked`). -/
inductive PathResult where
  | ok (s : Str)
  | err (e : String)
  | panicked (msg : String)
deriving DecidableEq, Repr

/-- The rendering loop of `Path` in `norm.go`: walk the route template
and the request path in lock-step, stopping at the first empty
template component.  Static components re-render their literal text,
anonymous captures re-render the original path component, named
captures re-render the current raw value from the context (failing
with `errNoParam` when absent).  `strings.Builder` writes never fail
in Go, so the write-error branches are dead code; the `parseParam`
panic is modelled as `panicked`. -/
def pathLoop (r : Request) (hasTrailingSlash : Bool) (route oldPath acc : Str) :
    PathResult :=
  let pc := splitSeg oldPath
  let rc := splitSeg route
  if hcomp : rc.1.isEmpty then
    .ok (if hasTrailingSlash then acc ++ ['/'] else acc)
  else
    let acc2 := acc ++ ['/']
    match parseParam rc.1 with
    | .error e => .panicked e
    | .ok (name, typ) =>
      if typ = .static then pathLoop r hasTrailingSlash rc.2 pc.2 (acc2 ++ name)
      else if name.isEmpty then pathLoop r hasTrailingSlash rc.2 pc.2 (acc2 ++ pc.1)
      else
        let pinfo := Param r name
        match pinfo.value with
        | none => .err errNoParam
        | some _ => pathLoop r hasTrailingSlash rc.2 pc.2 (acc2 ++ pinfo.raw)
  termination_by route.length
  decreasing_by
  · exact splitSeg_snd_length_lt route (splitSeg_fst_ne_nil route (by simpa using hcomp))
  · exact splitSeg_snd_length_lt route (splitSeg_fst_ne_nil route (by simpa using hcomp))
  · exact splitSeg_snd_length_lt route (splitSeg_fst_ne_nil route (by simpa using hcomp))

/-- `Path` from `norm.go`.  The route template is read from the
context with a single-value type assertion
(`r.Context().Value(ctxRoute\x7b\x7d).(string)`): when the context
carries no route value at all that assertion panics; when it carries
the empty string, `Path` returns `errNoRoute`. -/
def Path (r : Request) : PathResult :=
  match r.ctx.route with
  | none => .panicked "interface conversion: interface is nil, not string"
  | some route =>
    if route.isEmpty then .err errNoRoute
    else
      let hasTrailingSlash := route.getLast? = some '/'
      let oldPath := dropLeadingSlash r.urlPath
      pathLoop r hasTrailingSlash route oldPath []

/-- All template components visited by `Path`'s loop (up to the first
empty component) are well-formed pattern segments. -/
def segmentsOk (route : Str) : Bool :=
  let rc := splitSeg route
  if hcomp : rc.1.isEmpty then true
  else
    match parseParam rc.1 with
    | .error _ => false
    | .ok _ => segmentsOk rc.2
  termination_by route.length
  decreasing_by
  · exact splitSeg_snd_length_lt route (splitSeg_fst_ne_nil route (by simpa using hcomp))

/-- An action a handler performs on its `http.ResponseWriter`: an
explicit `WriteHeader(code)` or a body `Write`. -/
inductive HAction where
  | writeHeader (code : Nat)
  | write (p : Str)
deriving DecidableEq, Repr

/-- The status-relevant state of the underlying `http.ResponseWriter`
(`net/http` semantics): the first `WriteHeader` call fixes the status;
a body write with no status set implies an implicit 200. -/
structure SinkState where
  status : Option Nat
deriving DecidableEq, Repr

/-- Underlying `WriteHeader`: only the first call takes effect
(`net/http` ignores superfluous calls). -/
def sinkWriteHeader (s : SinkState) (code : Nat) : SinkState :=
  match s.status with
  | none => ⟨some code⟩
  | some _ => s

/-- Underlying body `Write`: an unset status becomes the implicit
200. -/
def sinkWrite (s : SinkState) : SinkState :=
  match s.status with
  | none => ⟨some 200⟩
  | some _ => s

/-- The `defCodeWriter` wrapper state from `handlers.go`: the default
code and whether a write already happened. -/
structure DefCodeWriter where
  code : Nat
  wrote : Bool
deriving DecidableEq, Repr

/-- One handler action through `defCodeWriter` (`handlers.go` lines
16-27): the first body write with no prior write injects
`WriteHeader(code)`; an explicit `WriteHeader` marks `wrote` and
forwards. -/
def dcwStep : DefCodeWriter × SinkState → HAction → DefCodeWriter × SinkState
  | (w, s), .writeHeader code => ({ w with wrote := true }, sinkWriteHeader s code)
  | (w, s), .write _ =>
    if w.wrote then (w, sinkWrite s)
    else ({ w with wrote := true }, sinkWrite (sinkWriteHeader s w.code))

/-- Run a not-found handler (as its action trace) through
`notFoundHandler`'s `defCodeWriter` wrapper with default code 404
(`handlers.go` lines 29-36) and report the final response status; a
handler that performs nothing still ends with the transport's implicit
200 at completion. -/
def runNotFound (actions : List HAction) : Nat :=
  let final := actions.foldl dcwStep (⟨404, false⟩, ⟨none⟩)
  match final.2.status with
  | some code => code
  | none => 200

theorem Node.sizeOf_child_lt (n : Node) : sizeOf n.child < sizeOf n := by
  cases n
  simp only [Node.mk.sizeOf_spec]
  omega

/-- Children of a node as registration leaves them: either all static,
or a single dynamic child; recursively at every node.  (The claim's
"at most one dynamic child" follows.) -/
def Homogeneous : Node → Bool
  | n =>
    (n.child.all (fun c => c.typ = .static) || n.child.length = 1) &&
      n.child.attach.all (fun c => Homogeneous c.1)
  termination_by n => sizeOf n
  decreasing_by
    exact lt_trans (List.sizeOf_lt_of_mem c.2) (Node.sizeOf_child_lt n)

/-- At most one non-static (dynamic) child per node, recursively. -/
def AtMostOneDyn : Node → Bool
  | n =>
    (n.child.filter (fun c => c.typ ≠ .static)).length ≤ 1 &&
      n.child.attach.all (fun c => AtMostOneDyn c.1)
  termination_by n => sizeOf n
  decreasing_by
    exact lt_trans (List.sizeOf_lt_of_mem c.2) (Node.sizeOf_child_lt n)

/-- A request with an empty context, as `httptest.NewRequest` produces
it. -/
def mkReq (method path : Str) : Request := ⟨method, path, ⟨none, []⟩⟩

/-- Extract the mux from a successful configuration (`New` panics
otherwise; the default is never used in this file's theorems). -/
def getOk (e : Except String ServeMux) : ServeMux :=
  match e with
  | .ok m => m
  | .error _ => New

/-- Whether a configuration step panicked. -/
def isError {α : Type} (e : Except String α) : Bool :=
  match e with
  | .error _ => true
  | .ok _ => false

/-- The mux of `mux.New(mux.Handle("GET", "/{int}", h5))`. -/
def intMuxE : Except String ServeMux := newMux [.handle "GET".data "/{int}".data 5]

/-- The route tree `intMuxE` builds. -/
def intMuxVal : ServeMux :=
  ⟨⟨"/".data, .static, [], [], [⟨[], .int, [("GET".data, 5)], "{int}".data, []⟩]⟩,
    defaultNotFound, some defaultMethodNotAllowed, true⟩

/-- The mux of `mux.New(mux.Handle("GET", "/{u uint}", h5))`. -/
def uintMuxE : Except String ServeMux := newMux [.handle "GET".data "/{u uint}".data 5]

/-- The route tree `uintMuxE` builds. -/
def uintMuxVal : ServeMux :=
  ⟨⟨"/".data, .static, [], [], [⟨"u".data, .uint, [("GET".data, 5)], "{u uint}".data, []⟩]⟩,
    defaultNotFound, some defaultMethodNotAllowed, true⟩

/-- The mux of `mux.New(mux.Handle("GET", "/files/{p path}", h7))`. -/
def filesMuxE : Except String ServeMux :=
  newMux [.handle "GET".data "/files/{p path}".data 7]

/-- The route tree `filesMuxE` builds. -/
def filesMuxVal : ServeMux :=
  ⟨⟨"/".data, .static, [], [],
    [⟨"files".data, .static, [], [],
      [⟨"p".data, .wild, [("GET".data, 7)], "files/{p path}".data, []⟩]⟩]⟩,
    defaultNotFound, some defaultMethodNotAllowed, true⟩

/-- The attempted registration of `/files/{p path}/end` (a wildcard
that is not the last component). -/
def filesBadMuxE : Except String ServeMux :=
  newMux [.handle "GET".data "/files/{p path}/end".data 7]

/-- The mux of registering `GET /good/one` and `GET /good/two` with
default options (`mux_test.go`, `registerTests` case 14). -/
def goodMuxE : Except String ServeMux :=
  newMux [.handle "GET".data "/good/one".data 1, .handle "GET".data "/good/two".data 2]

/-- The route tree `goodMuxE` builds. -/
def goodMuxVal : ServeMux :=
  ⟨⟨"/".data, .static, [], [],
    [⟨"good".data, .static, [], [],
      [⟨"one".data, .static, [("GET".data, 1)], "good/one".data, []⟩,
       ⟨"two".data, .static, [("GET".data, 2)], "good/two".data, []⟩]⟩]⟩,
    defaultNotFound, some defaultMethodNotAllowed, true⟩

/-- As `goodMuxE`, with the OPTIONS hook disabled (`mux.Options(nil)`). -/
def goodNoOptMuxE : Except String ServeMux :=
  newMux [.handle "GET".data "/good/one".data 1, .handle "GET".data "/good/two".data 2,
    .optionsOpt false]

/-- The route tree `goodNoOptMuxE` builds. -/
def goodNoOptMuxVal : ServeMux :=
  ⟨⟨"/".data, .static, [], [],
    [⟨"good".data, .static, [], [],
      [⟨"one".data, .static, [("GET".data, 1)], "good/one".data, []⟩,
       ⟨"two".data, .static, [("GET".data, 2)], "good/two".data, []⟩]⟩]⟩,
    defaultNotFound, some defaultMethodNotAllowed, false⟩

/-- Registering both `/user/me` and `/user/you`: two static siblings. -/
def userMuxE : Except String ServeMux :=
  newMux [.handle "GET".data "/user/me".data 1, .handle "GET".data "/user/you".data 2]

/-- The mux of `mux.New(mux.Handle("GET", "/", h3))`: a root-route
registration. -/
def rootMuxE : Except String ServeMux := newMux [.handle "GET".data "/".data 3]

/-- The route tree `rootMuxE` builds; note the empty `route` template
stored on the root node. -/
def rootMuxVal : ServeMux :=
  ⟨⟨"/".data, .static, [("GET".data, 3)], [], []⟩,
    defaultNotFound, some defaultMethodNotAllowed, true⟩

/-- The mux of `mux.New(mux.Handle("GET", "/profile/{username string}/personal", h9))`. -/
def profileMuxE : Except String ServeMux :=
  newMux [.handle "GET".data "/profile/{username string}/personal".data 9]

/-- The route tree `profileMuxE` builds. -/
def profileMuxVal : ServeMux :=
  ⟨⟨"/".data, .static, [], [],
    [⟨"profile".data, .static, [], [],
      [⟨"username".data, .str, [], [],
        [⟨"personal".data, .static, [("GET".data, 9)],
          "profile/{username string}/personal".data, []⟩]⟩]⟩]⟩,
    defaultNotFound, some defaultMethodNotAllowed, true⟩

/-- The request `profileMuxVal` dispatches for
`GET /profile/Whatever/personal`: the route template and the captured
`username` parameter are on the context. -/
def c8req : Request :=
  ⟨"GET".data, "/profile/Whatever/personal".data,
    ⟨some "profile/{username string}/personal".data,
      [("username".data,
        ⟨some (.str "Whatever".data), "Whatever".data, "username".data, .str, 2⟩)]⟩⟩

/-- A hand-built tree that registration cannot produce: a dynamic
string child and a static child `user` side by side at the same
level. -/
def c1dyn : Node := ⟨"x".data, .str, [("GET".data, 8)], [], []⟩

/-- The static sibling of `c1dyn` in the hand-built tree. -/
def c1static : Node := ⟨"user".data, .static, [("GET".data, 9)], "user".data, []⟩

/-- A mux over the hand-built mixed tree, dynamic child first. -/
def c1mixedMux : ServeMux :=
  ⟨⟨"/".data, .static, [], [], [c1dyn, c1static]⟩, defaultNotFound,
    some defaultMethodNotAllowed, true⟩

theorem findIdx?_lt_length {α : Type} (l : List α) (p : α → Bool) (i : Nat)
    (h : l.findIdx? p = some i) : i < l.length := by
  induction l generalizing i with
  | nil => simp [List.findIdx?] at h
  | cons a t ih =>
    rw [List.findIdx?_cons] at h
    by_cases hp : p a
    · simp [hp] at h
      simp [← h]
    · simp [hp] at h
      cases h2 : (t.findIdx? p) with
      | none => simp [h2] at h
      | some j =>
        simp [h2] at h
        have := ih j h2
        simp [← h]
        omega

theorem homogeneous_iff (n : Node) : Homogeneous n = true ↔
    ((∀ c ∈ n.child, c.typ = .static) ∨ n.child.length = 1) ∧
      (∀ c ∈ n.child, Homogeneous c = true) := by
  rw [Homogeneous]
  simp [List.all_eq_true, List.mem_attach, Subtype.forall]

theorem atMostOneDyn_iff (n : Node) : AtMostOneDyn n = true ↔
    (n.child.filter (fun c => c.typ ≠ .static)).length ≤ 1 ∧
      (∀ c ∈ n.child, AtMostOneDyn c = true) := by
  rw [AtMostOneDyn]
  simp [List.all_eq_true, List.mem_attach, Subtype.forall]

/-- `Homogeneous` only reads the children, never the handler map or
route template. -/
theorem homog_update (nm : Str) (tp : Typ) (hs hs2 : List (Str × Nat))
    (rt rt2 : Str) (ch : List Node) :
    Homogeneous ⟨nm, tp, hs, rt, ch⟩ = Homogeneous ⟨nm, tp, hs2, rt2, ch⟩ := by
  conv_lhs => rw [Homogeneous]
  conv_rhs => rw [Homogeneous]

theorem homog_leaf (nm : Str) (tp : Typ) (hs : List (Str × Nat)) (rt : Str) :
    Homogeneous ⟨nm, tp, hs, rt, []⟩ = true := by
  rw [Homogeneous]
  simp

/-- Every successful insertion only rewrites the children of the node
it was applied to. -/
theorem insertRoute_ok_shape (method full : Str) (h : Nat) (n : Node)
    (part remain : Str) (n2 : Node)
    (hok : insertRoute method full h n part remain = .ok n2) :
    ∃ cs, n2 = { n with child := cs } := by
  rw [insertRoute] at hok
  repeat'
    first
    | split at hok
    | rw [if_neg Bool.false_ne_true] at hok
    | simp only [] at hok
  any_goals exact Except.noConfusion hok
  all_goals
    simp only [Except.ok.injEq] at hok
    exact ⟨_, hok.symm⟩

theorem node_eta (n : Node) : (⟨n.name, n.typ, n.handlers, n.route, n.child⟩ : Node) = n := by
  cases n
  rfl

theorem getD_mem_of_lt {α : Type} (l : List α) (i : Nat) (d : α) (h : i < l.length) :
    l.getD i d ∈ l := by
  rw [List.getD_eq_getElem l d h]
  exact List.getElem_mem h

theorem insertRoute_homog (method full : Str) (h : Nat) (n : Node) (part remain : Str) :
    ∀ n2, Homogeneous n = true → insertRoute method full h n part remain = .ok n2 →
      Homogeneous n2 = true := by
  induction n, part, remain using insertRoute.induct method full h with
  | case1 n part remain e hp => 
    intro n2 hh hok
    rw [insertRoute] at hok
    simp only [hp] at hok
    exact Except.noConfusion hok
  | case2 n part remain name typ hp hw =>
    intro n2 hh hok
    rw [insertRoute] at hok
    simp only [hp, if_pos hw] at hok
    exact Except.noConfusion hok
  | case3 n part remain name typ hp hw conf hconf =>
    intro n2 hh hok
    rw [insertRoute] at hok
    simp only [hp, if_neg hw] at hok
    rw [if_pos hconf] at hok
    exact Except.noConfusion hok
  | case4 n part remain name typ hp hw conf hconf i hfind c hrem hlook =>
    intro n2 hh hok
    rw [insertRoute] at hok
    simp only [hp, if_neg hw] at hok
    rw [if_neg hconf] at hok
    rw [hfind] at hok
    simp only [] at hok
    rw [dif_pos hrem] at hok
    have hlook2 : Mux.lookupH (n.child.getD i ⟨[], .static, [], [], []⟩).handlers method = none := hlook
    rw [hlook2] at hok
    simp only [Except.ok.injEq] at hok
    subst hok
    have hi : i < n.child.length := findIdx?_lt_length _ _ _ hfind
    have hmem : n.child.getD i ⟨[], .static, [], [], []⟩ ∈ n.child := getD_mem_of_lt _ _ _ hi
    rcases (homogeneous_iff n).mp hh with ⟨hco, hrec⟩
    apply (homogeneous_iff _).mpr
    constructor
    · cases hco with
      | inl hall =>
        left
        intro x hx
        rcases List.mem_or_eq_of_mem_set hx with hx2 | rfl
        · exact hall x hx2
        · show (n.child.getD i ⟨[], .static, [], [], []⟩).typ = .static
          exact hall _ hmem
      | inr hlen =>
        right
        simpa [List.length_set] using hlen
    · intro x hx
      rcases List.mem_or_eq_of_mem_set hx with hx2 | rfl
      · exact hrec x hx2
      · refine (homog_update _ _ _ (n.child.getD i ⟨[], .static, [], [], []⟩).handlers _
          (n.child.getD i ⟨[], .static, [], [], []⟩).route _).trans ?_
        rw [node_eta]
        exact congrArg (· = true) (rfl) ▸ (hrec _ hmem)
  | case5 n part remain name typ hp hw conf hconf i hfind c hrem un hlook =>
    intro n2 hh hok
    rw [insertRoute] at hok
    simp only [hp, if_neg hw] at hok
    rw [if_neg hconf] at hok
    rw [hfind] at hok
    simp only [] at hok
    rw [dif_pos hrem] at hok
    have hlook2 : Mux.lookupH (n.child.getD i ⟨[], .static, [], [], []⟩).handlers method = some un := hlook
    rw [hlook2] at hok
    exact Except.noConfusion hok
  | case6 n part remain name typ hp hw conf hconf i hfind c hrem pr e hins ih =>
    intro n2 hh hok
    rw [insertRoute] at hok
    simp only [hp, if_neg hw] at hok
    rw [if_neg hconf] at hok
    rw [hfind] at hok
    simp only [] at hok
    rw [dif_neg hrem] at hok
    have hins2 : Mux.insertRoute method full h (n.child.getD i ⟨[], .static, [], [], []⟩)
        (splitSeg remain).1 (splitSeg remain).2 = Except.error e := hins
    rw [hins2] at hok
    exact Except.noConfusion hok
  | case7 n part remain name typ hp hw conf hconf i hfind c hrem pr c2 hins ih =>
    intro n2 hh hok
    rw [insertRoute] at hok
    simp only [hp, if_neg hw] at hok
    rw [if_neg hconf] at hok
    rw [hfind] at hok
    simp only [] at hok
    rw [dif_neg hrem] at hok
    have hins2 : Mux.insertRoute method full h (n.child.getD i ⟨[], .static, [], [], []⟩)
        (splitSeg remain).1 (splitSeg remain).2 = Except.ok c2 := hins
    rw [hins2] at hok
    simp only [Except.ok.injEq] at hok
    subst hok
    have hi : i < n.child.length := findIdx?_lt_length _ _ _ hfind
    have hmem : n.child.getD i ⟨[], .static, [], [], []⟩ ∈ n.child := getD_mem_of_lt _ _ _ hi
    rcases (homogeneous_iff n).mp hh with ⟨hco, hrec⟩
    have hc2 : Homogeneous c2 = true := ih c2 (hrec _ hmem) hins
    obtain ⟨cs, hshape⟩ := insertRoute_ok_shape _ _ _ _ _ _ _ hins2
    have htyp : c2.typ = (n.child.getD i ⟨[], .static, [], [], []⟩).typ := by
      rw [hshape]
    apply (homogeneous_iff _).mpr
    constructor
    · cases hco with
      | inl hall =>
        left
        intro x hx
        rcases List.mem_or_eq_of_mem_set hx with hx2 | rfl
        · exact hall x hx2
        · rw [htyp]
          exact hall _ hmem
      | inr hlen =>
        right
        simpa [List.length_set] using hlen
    · intro x hx
      rcases List.mem_or_eq_of_mem_set hx with hx2 | rfl
      · exact hrec x hx2
      · exact hc2
  | case8 n part remain name typ hp hw conf hconf hfind hrem =>
    intro n2 hh hok
    rw [insertRoute] at hok
    simp only [hp, if_neg hw] at hok
    rw [if_neg hconf] at hok
    rw [hfind] at hok
    simp only [] at hok
    rw [dif_pos hrem] at hok
    simp only [Except.ok.injEq] at hok
    subst hok
    rcases (homogeneous_iff n).mp hh with ⟨hco, hrec⟩
    have hnames : ∀ x ∈ n.child, ¬(x.name = name) := by
      intro x hx
      have := List.findIdx?_eq_none_iff.mp hfind x hx
      simpa using this
    apply (homogeneous_iff _).mpr
    constructor
    · by_cases ht : typ = .static
      · left
        intro x hx
        rcases List.mem_append.mp hx with hx2 | hx2
        · cases hnc : n.child with
          | nil => rw [hnc] at hx2; simp at hx2
          | cons c0 tl =>
            have hc0 : c0.typ = .static := by
              by_contra hne
              apply hconf
              show (match n.child with
                | [] => false
                | child0 :: _ => decide
                    (typ ≠ Typ.static ∧ child0.typ ≠ typ ∨
                      typ ≠ Typ.static ∧ child0.name ≠ name ∨
                      typ = Typ.static ∧ child0.typ ≠ typ)) = true
              rw [hnc]
              simp [ht, hne]
            cases hco with
            | inl hall => exact hall x hx2
            | inr hlen =>
              rw [hnc] at hlen
              simp at hlen
              rw [hnc] at hx2
              rw [hlen] at hx2
              simp at hx2
              rw [hx2]
              exact hc0
        · simp at hx2
          rw [hx2]
          exact ht
      · have hempty : n.child = [] := by
          cases hnc : n.child with
          | nil => rfl
          | cons c0 tl =>
            exfalso
            apply hconf
            show (match n.child with
              | [] => false
              | child0 :: _ => decide
                  (typ ≠ Typ.static ∧ child0.typ ≠ typ ∨
                    typ ≠ Typ.static ∧ child0.name ≠ name ∨
                    typ = Typ.static ∧ child0.typ ≠ typ)) = true
            rw [hnc]
            have hn0 : c0.name ≠ name := by
              have := hnames c0 (by rw [hnc]; simp)
              simpa using this
            simp [ht, hn0]
        right
        rw [hempty]
        simp
    · intro x hx
      rcases List.mem_append.mp hx with hx2 | hx2
      · exact hrec x hx2
      · simp at hx2
        rw [hx2]
        exact homog_leaf _ _ _ _
  | case9 n part remain name typ hp hw conf hconf hfind hrem pr e hins ih =>
    intro n2 hh hok
    rw [insertRoute] at hok
    simp only [hp, if_neg hw] at hok
    rw [if_neg hconf] at hok
    rw [hfind] at hok
    simp only [] at hok
    rw [dif_neg hrem] at hok
    have hins2 : Mux.insertRoute method full h (⟨name, typ, [], [], []⟩ : Node)
        (splitSeg remain).1 (splitSeg remain).2 = Except.error e := hins
    rw [hins2] at hok
    exact Except.noConfusion hok
  | case10 n part remain name typ hp hw conf hconf hfind hrem pr c2 hins ih =>
    intro n2 hh hok
    rw [insertRoute] at hok
    simp only [hp, if_neg hw] at hok
    rw [if_neg hconf] at hok
    rw [hfind] at hok
    simp only [] at hok
    rw [dif_neg hrem] at hok
    have hins2 : Mux.insertRoute method full h (⟨name, typ, [], [], []⟩ : Node)
        (splitSeg remain).1 (splitSeg remain).2 = Except.ok c2 := hins
    rw [hins2] at hok
    simp only [Except.ok.injEq] at hok
    subst hok
    rcases (homogeneous_iff n).mp hh with ⟨hco, hrec⟩
    have hc2 : Homogeneous c2 = true := ih c2 (homog_leaf _ _ _ _) hins
    obtain ⟨cs, hshape⟩ := insertRoute_ok_shape _ _ _ _ _ _ _ hins2
    have htyp : c2.typ = typ := by
      rw [hshape]
    have hnames : ∀ x ∈ n.child, ¬(x.name = name) := by
      intro x hx
      have := List.findIdx?_eq_none_iff.mp hfind x hx
      simpa using this
    apply (homogeneous_iff _).mpr
    constructor
    · by_cases ht : typ = .static
      · left
        intro x hx
        rcases List.mem_append.mp hx with hx2 | hx2
        · cases hnc : n.child with
          | nil => rw [hnc] at hx2; simp at hx2
          | cons c0 tl =>
            have hc0 : c0.typ = .static := by
              by_contra hne
              apply hconf
              show (match n.child with
                | [] => false
                | child0 :: _ => decide
                    (typ ≠ Typ.static ∧ child0.typ ≠ typ ∨
                      typ ≠ Typ.static ∧ child0.name ≠ name ∨
                      typ = Typ.static ∧ child0.typ ≠ typ)) = true
              rw [hnc]
              simp [ht, hne]
            cases hco with
            | inl hall => exact hall x hx2
            | inr hlen =>
              rw [hnc] at hlen
              simp at hlen
              rw [hnc] at hx2
              rw [hlen] at hx2
              simp at hx2
              rw [hx2]
              exact hc0
        · simp at hx2
          rw [hx2, htyp]
          exact ht
      · have hempty : n.child = [] := by
          cases hnc : n.child with
          | nil => rfl
          | cons c0 tl =>
            exfalso
            apply hconf
            show (match n.child with
              | [] => false
              | child0 :: _ => decide
                  (typ ≠ Typ.static ∧ child0.typ ≠ typ ∨
                    typ ≠ Typ.static ∧ child0.name ≠ name ∨
                    typ = Typ.static ∧ child0.typ ≠ typ)) = true
            rw [hnc]
            have hn0 : c0.name ≠ name := by
              have := hnames c0 (by rw [hnc]; simp)
              simpa using this
            simp [ht, hn0]
        right
        rw [hempty]
        simp
    · intro x hx
      rcases List.mem_append.mp hx with hx2 | hx2
      · exact hrec x hx2
      · simp at hx2
        rw [hx2]
        exact hc2

theorem Handle_homog (method route : Str) (h : Nat) (m m2 : ServeMux)
    (hh : Homogeneous m.node = true) (hok : Handle method route h m = .ok m2) :
    Homogeneous m2.node = true := by
  rw [Handle] at hok
  repeat'
    first
    | split at hok
    | simp only [] at hok
  all_goals try exact Except.noConfusion hok
  all_goals simp only [Except.ok.injEq] at hok
  all_goals subst hok
  all_goals
    first
    | (rename_i c2 hins
       exact insertRoute_homog _ _ _ _ _ _ c2 hh hins)
    | (refine (homog_update _ _ _ m.node.handlers _ m.node.route _).trans ?_
       rw [node_eta]
       exact hh)

theorem applyOpt_homog (m m2 : ServeMux) (o : Opt)
    (hh : Homogeneous m.node = true) (hok : applyOpt m o = .ok m2) :
    Homogeneous m2.node = true := by
  cases o with
  | handle method route h => exact Handle_homog method route h m m2 hh hok
  | notFoundOpt h =>
    simp only [applyOpt, Except.ok.injEq] at hok
    subst hok
    exact hh
  | optionsOpt b =>
    simp only [applyOpt, Except.ok.injEq] at hok
    subst hok
    exact hh
  | methodNotAllowedOpt o =>
    simp only [applyOpt, Except.ok.injEq] at hok
    subst hok
    exact hh

theorem foldlM_homog (opts : List Opt) (m0 m : ServeMux)
    (hh : Homogeneous m0.node = true)
    (hok : opts.foldlM applyOpt m0 = .ok m) : Homogeneous m.node = true := by
  induction opts generalizing m0 with
  | nil =>
    simp only [List.foldlM] at hok
    cases hok
    exact hh
  | cons o rest ih =>
    simp only [List.foldlM] at hok
    cases ho : applyOpt m0 o with
    | error e =>
      rw [ho] at hok
      exact Except.noConfusion hok
    | ok m1 =>
      rw [ho] at hok
      exact ih m1 (applyOpt_homog m0 m1 o hh ho) hok

/-- Registration never produces a tree with a static and a dynamic
child at the same level: every successfully built mux is homogeneous. -/
theorem newMux_homog (opts : List Opt) (m : ServeMux)
    (hok : newMux opts = .ok m) : Homogeneous m.node = true := by
  have hnew : Homogeneous New.node = true := homog_leaf _ _ _ _
  exact foldlM_homog opts New m hnew hok

theorem homog_atMostOneDyn (n : Node) (hh : Homogeneous n = true) :
    AtMostOneDyn n = true := by
  induction n using AtMostOneDyn.induct with
  | _ n nn ih =>
    rcases (homogeneous_iff n).mp hh with ⟨hco, hrec⟩
    apply (atMostOneDyn_iff n).mpr
    constructor
    · cases hco with
      | inl hall =>
        have : n.child.filter (fun c => c.typ ≠ .static) = [] := by
          rw [List.filter_eq_nil]
          intro a ha
          simp [hall a ha]
        rw [this]
        simp
      | inr hlen =>
        calc (n.child.filter (fun c => c.typ ≠ .static)).length
            ≤ n.child.length := List.length_filter_le _ _
          _ = 1 := hlen
    · intro c hc
      exact ih ⟨c, hc⟩ (hrec c hc)

set_option maxHeartbeats 1000000 in
theorem intMuxE_eq : intMuxE = .ok intMuxVal := by
  simp [intMuxE, intMuxVal, newMux, New, applyOpt, Handle, insertRoute, parseParam,
    recognizedTyp, toUpperStr, setHandler, cleanPath, pathClean, cleanLoop, popSeg,
    splitSeg, lookupH, lbrace, rbrace, List.foldlM, Bind.bind, Except.bind, pure,
    Except.pure, defaultNotFound, defaultMethodNotAllowed]

set_option maxHeartbeats 1000000 in
theorem uintMuxE_eq : uintMuxE = .ok uintMuxVal := by
  simp [uintMuxE, uintMuxVal, newMux, New, applyOpt, Handle, insertRoute, parseParam,
    recognizedTyp, toUpperStr, setHandler, cleanPath, pathClean, cleanLoop, popSeg,
    splitSeg, lookupH, lbrace, rbrace, List.foldlM, Bind.bind, Except.bind, pure,
    Except.pure, defaultNotFound, defaultMethodNotAllowed]

set_option maxHeartbeats 1000000 in
theorem filesMuxE_eq : filesMuxE = .ok filesMuxVal := by
  simp [filesMuxE, filesMuxVal, newMux, New, applyOpt, Handle, insertRoute, parseParam,
    recognizedTyp, toUpperStr, setHandler, cleanPath, pathClean, cleanLoop, popSeg,
    splitSeg, lookupH, lbrace, rbrace, List.foldlM, Bind.bind, Except.bind, pure,
    Except.pure, defaultNotFound, defaultMethodNotAllowed]

set_option maxHeartbeats 1000000 in
theorem goodMuxE_eq : goodMuxE = .ok goodMuxVal := by
  simp [goodMuxE, goodMuxVal, newMux, New, applyOpt, Handle, insertRoute, parseParam,
    recognizedTyp, toUpperStr, setHandler, cleanPath, pathClean, cleanLoop, popSeg,
    splitSeg, lookupH, lbrace, rbrace, List.foldlM, Bind.bind, Except.bind, pure,
    Except.pure, defaultNotFound, defaultMethodNotAllowed]

set_option maxHeartbeats 1000000 in
theorem goodNoOptMuxE_eq : goodNoOptMuxE = .ok goodNoOptMuxVal := by
  simp [goodNoOptMuxE, goodNoOptMuxVal, newMux, New, applyOpt, Handle, insertRoute,
    parseParam, recognizedTyp, toUpperStr, setHandler, cleanPath, pathClean, cleanLoop,
    popSeg, splitSeg, lookupH, lbrace, rbrace, List.foldlM, Bind.bind, Except.bind,
    pure, Except.pure, defaultNotFound, defaultMethodNotAllowed]

set_option maxHeartbeats 1000000 in
theorem rootMuxE_eq : rootMuxE = .ok rootMuxVal := by
  simp [rootMuxE, rootMuxVal, newMux, New, applyOpt, Handle, insertRoute, parseParam,
    recognizedTyp, toUpperStr, setHandler, cleanPath, pathClean, cleanLoop, popSeg,
    splitSeg, lookupH, lbrace, rbrace, List.foldlM, Bind.bind, Except.bind, pure,
    Except.pure, defaultNotFound, defaultMethodNotAllowed]

set_option maxHeartbeats 1000000 in
theorem profileMuxE_eq : profileMuxE = .ok profileMuxVal := by
  simp [profileMuxE, profileMuxVal, newMux, New, applyOpt, Handle, insertRoute,
    parseParam, recognizedTyp, toUpperStr, setHandler, cleanPath, pathClean, cleanLoop,
    popSeg, splitSeg, lookupH, lbrace, rbrace, List.foldlM, Bind.bind, Except.bind,
    pure, Except.pure, defaultNotFound, defaultMethodNotAllowed]

set_option maxHeartbeats 1000000 in
theorem profileMux_dispatch :
    muxHandler profileMuxVal (mkReq "GET".data "/profile/Whatever/personal".data) =
      .handler 9 c8req := by
  simp [muxHandler, muxRoute, handlerLoop, scanChildren, dynOnlyChild, dispatchDynamic,
    dispatchStatic, Node.matchPath, addValue, withRoute, lookupH, cleanPath, pathClean,
    cleanLoop, popSeg, splitSeg, dropLeadingSlash, profileMuxVal, c8req, mkReq, lbrace,
    rbrace, defaultNotFound, defaultMethodNotAllowed]

theorem c2_insert_conflict (n child0 : Node) (rest : List Node)
    (part remain name : Str) (typ : Typ) (method full : Str) (h : Nat)
    (hch : n.child = child0 :: rest) (hdyn : child0.typ ≠ .static)
    (hp : parseParam part = .ok (name, typ)) (htyp : typ ≠ .static)
    (hne : ¬(typ = child0.typ ∧ name = child0.name)) :
    isError (insertRoute method full h n part remain) = true := by
  rw [insertRoute]
  rw [hp]
  simp only []
  by_cases hwld : typ = Typ.wild ∧ remain ≠ []
  · rw [if_pos hwld]
    rfl
  · rw [if_neg hwld]
    have hconf : (match n.child with
        | [] => false
        | child0 :: _ => decide
            (typ ≠ Typ.static ∧ child0.typ ≠ typ ∨
              typ ≠ Typ.static ∧ child0.name ≠ name ∨
              typ = Typ.static ∧ child0.typ ≠ typ)) = true := by
      rw [hch]
      simp only [decide_eq_true_eq]
      rcases Decidable.not_and_iff_or_not.mp hne with h1 | h2
      · exact Or.inl ⟨htyp, fun he => h1 he.symm⟩
      · exact Or.inr (Or.inl ⟨htyp, fun he => h2 he.symm⟩)
    rw [if_pos hconf]
    rfl

theorem c3_insert_mix (n child0 : Node) (rest : List Node)
    (part remain name : Str) (typ : Typ) (method full : Str) (h : Nat)
    (hch : n.child = child0 :: rest)
    (hp : parseParam part = .ok (name, typ))
    (hmix : (typ = .static ∧ child0.typ ≠ .static) ∨
      (typ ≠ .static ∧ child0.typ = .static)) :
    isError (insertRoute method full h n part remain) = true := by
  rw [insertRoute]
  rw [hp]
  simp only []
  by_cases hwld : typ = Typ.wild ∧ remain ≠ []
  · rw [if_pos hwld]
    rfl
  · rw [if_neg hwld]
    have hconf : (match n.child with
        | [] => false
        | child0 :: _ => decide
            (typ ≠ Typ.static ∧ child0.typ ≠ typ ∨
              typ ≠ Typ.static ∧ child0.name ≠ name ∨
              typ = Typ.static ∧ child0.typ ≠ typ)) = true := by
      rw [hch]
      simp only [decide_eq_true_eq]
      rcases hmix with ⟨h1, h2⟩ | ⟨h1, h2⟩
      · exact Or.inr (Or.inr ⟨h1, by rw [h1] at *; exact h2⟩)
      · exact Or.inl ⟨h1, by rw [h2]; exact fun he => h1 he.symm⟩
    rw [if_pos hconf]
    rfl

theorem homog_static_level (n : Node) (hh : Homogeneous n = true) :
    ∀ c ∈ n.child, c.typ = .static →
      dynOnlyChild n.child = none ∧ ∀ c2 ∈ n.child, c2.typ = .static := by
  intro c hc hcs
  rcases (homogeneous_iff n).mp hh with ⟨hco, _⟩
  have hall : ∀ c2 ∈ n.child, c2.typ = .static := by
    cases hco with
    | inl hall => exact hall
    | inr hlen =>
      obtain ⟨a, ha⟩ := List.length_eq_one.mp hlen
      intro c2 hc2
      rw [ha] at hc2 hc
      simp at hc2 hc
      rw [hc2, ← hc]
      exact hcs
  refine ⟨?_, hall⟩
  cases hnc : n.child with
  | nil => rfl
  | cons c0 tl =>
    cases tl with
    | nil =>
      rw [dynOnlyChild]
      rw [if_pos (hall c0 (by rw [hnc]; simp))]
    | cons c1 tl2 => rfl

theorem dcw_preserve (acts : List HAction) (w : DefCodeWriter) (s : SinkState)
    (c : Nat) (hs : s.status = some c) :
    (acts.foldl dcwStep (w, s)).2.status = some c := by
  induction acts generalizing w s with
  | nil => exact hs
  | cons a rest ih =>
    cases a with
    | writeHeader code =>
      simp only [List.foldl, dcwStep, sinkWriteHeader, hs]
      exact ih _ _ hs
    | write p =>
      simp only [List.foldl, dcwStep]
      by_cases hw : w.wrote
      · simp only [hw, reduceIte]
        apply ih
        simp [sinkWrite, hs]
      · simp only [hw, Bool.false_eq_true, reduceIte]
        apply ih
        simp [sinkWrite, sinkWriteHeader, hs]

theorem pathLoop_no_panic (r : Request) (hts : Bool) :
    ∀ (route oldPath acc : Str), segmentsOk route = true →
      (∀ msg, pathLoop r hts route oldPath acc ≠ .panicked msg) ∧
      (∀ e, pathLoop r hts route oldPath acc = .err e → e = errNoParam) := by
  intro route oldPath acc
  induction route, oldPath, acc using pathLoop.induct r hts with
  | case1 route oldPath acc rc hcomp =>
    intro hseg
    rw [pathLoop]
    rw [dif_pos hcomp]
    exact ⟨fun msg => by simp, fun e he => by simp at he⟩
  | case2 route oldPath acc rc hcomp e hp =>
    intro hseg
    exfalso
    rw [segmentsOk] at hseg
    rw [dif_neg hcomp] at hseg
    rw [hp] at hseg
    simp at hseg
  | case3 route oldPath acc pc rc hcomp acc2 name hp ih =>
    intro hseg
    rw [pathLoop]
    rw [dif_neg hcomp]
    rw [hp]
    simp only [reduceIte]
    apply ih
    rw [segmentsOk] at hseg
    rw [dif_neg hcomp] at hseg
    rw [hp] at hseg
    exact hseg
  | case4 route oldPath acc pc rc hcomp acc2 name typ hp htyp hname ih =>
    intro hseg
    rw [pathLoop]
    rw [dif_neg hcomp]
    rw [hp]
    simp only []
    rw [if_neg htyp]
    rw [if_pos hname]
    apply ih
    rw [segmentsOk] at hseg
    rw [dif_neg hcomp] at hseg
    rw [hp] at hseg
    exact hseg
  | case5 route oldPath acc rc hcomp name typ hp htyp hname pinfo hpv =>
    intro hseg
    rw [pathLoop]
    rw [dif_neg hcomp]
    rw [hp]
    simp only []
    rw [if_neg htyp]
    rw [if_neg hname]
    have hpv2 : (Param r name).value = none := hpv
    rw [hpv2]
    exact ⟨fun msg => by simp, fun e he => by simp at he; exact he.symm⟩
  | case6 route oldPath acc pc rc hcomp acc2 name typ hp htyp hname pinfo val hpv ih =>
    intro hseg
    rw [pathLoop]
    rw [dif_neg hcomp]
    rw [hp]
    simp only []
    rw [if_neg htyp]
    rw [if_neg hname]
    have hpv2 : (Param r name).value = some val := hpv
    rw [hpv2]
    apply ih
    rw [segmentsOk] at hseg
    rw [dif_neg hcomp] at hseg
    rw [hp] at hseg
    exact hseg

/-- C1 (counterexample): in a hand-built tree that has, at the same
level, a dynamic child first and a static child whose literal `user`
equals the request segment, the matcher resolves the segment `user` to
the **dynamic** child (its handler 8 is returned and the string
capture fires), not to the static child with handler 9 — the scan of
`mux.go` lines 195-227 takes the first matching child in order.  The
claim's priority policy therefore fails on such trees; the code never
compares a dynamic and a static candidate, it relies on registration
forbidding their coexistence. -/
theorem c1_static_priority_counterexample :
    c1mixedMux.node.child = [c1dyn, c1static] ∧
    c1static.typ = .static ∧ c1static.name = "user".data ∧
    lookupH c1static.handlers "GET".data = some 9 ∧
    c1dyn.typ ≠ .static ∧
    muxHandler c1mixedMux (mkReq "GET".data "/user".data) =
      .handler 8 ⟨"GET".data, "/user".data,
        ⟨some [], [("x".data,
          ⟨some (.str "user".data), "user".data, "x".data, .str, 1⟩)]⟩⟩ := by
  refine ⟨rfl, rfl, rfl, by simp [lookupH, c1static], by simp [c1dyn], ?_⟩
  simp [muxHandler, muxRoute, handlerLoop, scanChildren, dynOnlyChild, dispatchDynamic,
    dispatchStatic, Node.matchPath, addValue, withRoute, lookupH, cleanPath, pathClean,
    cleanLoop, popSeg, splitSeg, dropLeadingSlash, c1mixedMux, c1dyn, c1static, mkReq,
    lbrace, rbrace]

/-- C1 (amended): the code enforces the static/dynamic separation at
registration time instead of at match time.  Every tree built by
`New`/`Handle` is homogeneous (a level holds either only static
children or a single dynamic child), and on a homogeneous tree a level
that contains a static child never takes the variable-route branch of
the matcher (`dynOnlyChild` is `none`) and contains no dynamic child
at all — so a segment equal to a static literal can only resolve to a
static child, and dynamic matching is attempted only at levels whose
sole child is dynamic. -/
theorem c1_static_priority_amended :
    (∀ (opts : List Opt) (m : ServeMux), newMux opts = .ok m →
      Homogeneous m.node = true) ∧
    (∀ n : Node, Homogeneous n = true → ∀ c ∈ n.child, c.typ = .static →
      dynOnlyChild n.child = none ∧ ∀ c2 ∈ n.child, c2.typ = .static) :=
  ⟨newMux_homog, homog_static_level⟩

/-- C1 (witness): the amended statement applied to the concrete mux of
`/good/one` and `/good/two`. -/
theorem c1_static_priority_witness :
    Homogeneous goodMuxVal.node = true ∧ dynOnlyChild goodMuxVal.node.child = none := by
  have h1 := c1_static_priority_amended.1
    [.handle "GET".data "/good/one".data 1, .handle "GET".data "/good/two".data 2]
    goodMuxVal goodMuxE_eq
  refine ⟨h1, ?_⟩
  have h2 := c1_static_priority_amended.2 goodMuxVal.node h1
    ⟨"good".data, .static, [], [],
      [⟨"one".data, .static, [("GET".data, 1)], "good/one".data, []⟩,
       ⟨"two".data, .static, [("GET".data, 2)], "good/two".data, []⟩]⟩
    (by simp [goodMuxVal]) rfl
  exact h2.1

/-- C2: registering a dynamic capture at a position whose existing
dynamic child has a different `(name, kind)` pair always aborts the
registration (`Handle` checks the segment against `pointer.child[0]`
and panics on a type or name conflict), and every successfully built
tree has at most one dynamic child per node. -/
theorem c2_dynamic_conflict :
    (∀ (n child0 : Node) (rest : List Node) (part remain name : Str) (typ : Typ)
        (method full : Str) (h : Nat),
      n.child = child0 :: rest → child0.typ ≠ .static →
      parseParam part = .ok (name, typ) → typ ≠ .static →
      ¬(typ = child0.typ ∧ name = child0.name) →
      isError (insertRoute method full h n part remain) = true) ∧
    (∀ (opts : List Opt) (m : ServeMux), newMux opts = .ok m →
      AtMostOneDyn m.node = true) :=
  ⟨c2_insert_conflict, fun opts m hok => homog_atMostOneDyn _ (newMux_homog opts m hok)⟩

/-- C2 (witness): inserting the anonymous string capture from the
second route of `registerTests` case 4 into the tree of `/{int}`
fails, and that tree has at most one dynamic child per node. -/
theorem c2_dynamic_conflict_witness :
    isError (insertRoute "GET".data "x".data 2 intMuxVal.node "{}".data []) = true ∧
    AtMostOneDyn intMuxVal.node = true := by
  constructor
  · exact c2_dynamic_conflict.1 intMuxVal.node
      ⟨[], .int, [("GET".data, 5)], "{int}".data, []⟩ []
      "{}".data [] [] .str "GET".data "x".data 2
      rfl (by decide) rfl (by decide) (by decide)
  · exact c2_dynamic_conflict.2 [.handle "GET".data "/{int}".data 5] intMuxVal intMuxE_eq

/-- C3 (counterexample): a static sibling and a dynamic sibling may
**not** coexist.  Registering `/me` after `/{uint}` aborts, and so
does registering `/{uint}` after `/me` (the pair of
`mux_test.go` `registerTests` case 17). -/
theorem c3_sibling_mix_counterexample :
    isError (newMux [.handle "GET".data "/{uint}".data 1,
      .handle "GET".data "/me".data 2]) = true ∧
    isError (newMux [.handle "GET".data "/me".data 2,
      .handle "GET".data "/{uint}".data 1]) = true := by
  refine ⟨?_, ?_⟩ <;>
    simp [newMux, New, applyOpt, Handle, insertRoute, parseParam, recognizedTyp,
      toUpperStr, setHandler, cleanPath, pathClean, cleanLoop, popSeg, splitSeg,
      isError, lbrace, rbrace, List.foldlM, Bind.bind, Except.bind, lookupH]

/-- C3 (amended): registering a static segment at a level that already
holds a dynamic child always fails, as does registering a dynamic
segment at a level that already holds a static child; a second
registration can share a level only when both segments are static or
both are the identical dynamic capture.  Two static siblings under the
same parent register fine. -/
theorem c3_sibling_mix_amended :
    (∀ (n child0 : Node) (rest : List Node) (part remain name : Str) (typ : Typ)
        (method full : Str) (h : Nat),
      n.child = child0 :: rest → parseParam part = .ok (name, typ) →
      ((typ = .static ∧ child0.typ ≠ .static) ∨ (typ ≠ .static ∧ child0.typ = .static)) →
      isError (insertRoute method full h n part remain) = true) ∧
    isError userMuxE = false := by
  constructor
  · exact c3_insert_mix
  · simp [userMuxE, newMux, New, applyOpt, Handle, insertRoute, parseParam,
      recognizedTyp, toUpperStr, setHandler, cleanPath, pathClean, cleanLoop, popSeg,
      splitSeg, isError, lbrace, rbrace, List.foldlM, Bind.bind, Except.bind, lookupH,
      pure, Except.pure]

/-- C3 (witness): the amended statement applied concretely — inserting
the static segment `me` at the level holding the dynamic `{u uint}`
child fails. -/
theorem c3_sibling_mix_witness :
    isError (insertRoute "GET".data "me".data 2 uintMuxVal.node "me".data []) = true := by
  exact c3_sibling_mix_amended.1 uintMuxVal.node
    ⟨"u".data, .uint, [("GET".data, 5)], "{u uint}".data, []⟩ []
    "me".data [] "me".data .static "GET".data "me".data 2
    rfl rfl (Or.inl ⟨rfl, by decide⟩)

/-- C4: on the mux of `/{int}`, requests for the paths `1` and `-1`
under the root match (the registered handler 5 is dispatched; the
`strconv.ParseInt` step that produces the captured `int64` yields `1`
and `-1`, discarded by `addValue` because the capture is anonymous),
while `nope` falls through to not-found; on the mux of `/{u uint}`,
path `1` matches with the captured `uint64` value `1` stored under
`u`, while `-1` and `nope` fail the unsigned parse and fall through to
not-found. -/
theorem c4_typed_matching :
    intMuxE = .ok intMuxVal ∧
    muxHandler intMuxVal (mkReq "GET".data "/1".data) =
      .handler 5 ⟨"GET".data, "/1".data, ⟨some "{int}".data, []⟩⟩ ∧
    muxHandler intMuxVal (mkReq "GET".data "/-1".data) =
      .handler 5 ⟨"GET".data, "/-1".data, ⟨some "{int}".data, []⟩⟩ ∧
    muxHandler intMuxVal (mkReq "GET".data "/nope".data) =
      .notFound (mkReq "GET".data "/nope".data) ∧
    goParseInt "1".data = some 1 ∧
    goParseInt "-1".data = some (-1) ∧
    goParseInt "nope".data = none ∧
    uintMuxE = .ok uintMuxVal ∧
    muxHandler uintMuxVal (mkReq "GET".data "/1".data) =
      .handler 5 ⟨"GET".data, "/1".data,
        ⟨some "{u uint}".data,
          [("u".data, ⟨some (.uint 1), "1".data, "u".data, .uint, 1⟩)]⟩⟩ ∧
    muxHandler uintMuxVal (mkReq "GET".data "/-1".data) =
      .notFound (mkReq "GET".data "/-1".data) ∧
    muxHandler uintMuxVal (mkReq "GET".data "/nope".data) =
      .notFound (mkReq "GET".data "/nope".data) ∧
    goParseUint "1".data = some 1 ∧
    goParseUint "-1".data = none ∧
    goParseUint "nope".data = none := by
  refine ⟨intMuxE_eq, ?_, ?_, ?_, by decide, by decide, by decide, uintMuxE_eq,
    ?_, ?_, ?_, by decide, by decide, by decide⟩ <;>
    simp [muxHandler, muxRoute, handlerLoop, scanChildren, dynOnlyChild,
      dispatchDynamic, dispatchStatic, Node.matchPath, addValue, withRoute, lookupH,
      cleanPath, pathClean, cleanLoop, popSeg, splitSeg, dropLeadingSlash, intMuxVal,
      uintMuxVal, mkReq, goParseInt, goParseUint, decValue, lbrace, rbrace,
      defaultNotFound, defaultMethodNotAllowed]

/-- C5: a path-typed (wildcard-remainder) segment must be terminal —
at every tree position, inserting a route whose segment parses to a
path-typed capture while **any** further segments remain always aborts
the registration (`Handle` checks `typ == typPath && remainder != ""`
before anything else); concretely, registering `/files/{p path}/end`
fails.  Registering `/files/{p path}` succeeds, and a request for
`/files/a/b/c` dispatches the registered handler with the entire
remainder `a/b/c` — embedded slashes included — stored as the raw
(and string) value of `p`. -/
theorem c5_wildcard_remainder :
    (∀ (method full : Str) (h : Nat) (n : Node) (part remain name : Str),
      parseParam part = .ok (name, .wild) → remain ≠ [] →
      isError (insertRoute method full h n part remain) = true) ∧
    isError filesBadMuxE = true ∧
    filesMuxE = .ok filesMuxVal ∧
    muxHandler filesMuxVal (mkReq "GET".data "/files/a/b/c".data) =
      .handler 7 ⟨"GET".data, "/files/a/b/c".data,
        ⟨some "files/{p path}".data,
          [("p".data, ⟨some (.str "a/b/c".data), "a/b/c".data, "p".data, .wild, 2⟩)]⟩⟩ := by
  refine ⟨?_, ?_, filesMuxE_eq, ?_⟩
  · intro method full h n part remain name hp hrem
    rw [insertRoute]
    rw [hp]
    simp only []
    rw [if_pos (by exact ⟨by trivial, hrem⟩)]
    rfl
  all_goals
    simp [muxHandler, muxRoute, handlerLoop, scanChildren, dynOnlyChild,
      dispatchDynamic, dispatchStatic, Node.matchPath, addValue, withRoute, lookupH,
      cleanPath, pathClean, cleanLoop, popSeg, splitSeg, dropLeadingSlash, filesMuxVal,
      filesBadMuxE, newMux, New, applyOpt, Handle, insertRoute, parseParam,
      recognizedTyp, toUpperStr, setHandler, mkReq, isError, lbrace, rbrace,
      List.foldlM, Bind.bind, Except.bind, defaultNotFound, defaultMethodNotAllowed]

/-- C5 (witness): the universal terminality rule applied concretely —
inserting the pattern segment `\x7bp path\x7d` with the further
segment `end` remaining fails at the empty root node. -/
theorem c5_wildcard_remainder_witness :
    isError (insertRoute "GET".data "files/x".data 1 ⟨[], .static, [], [], []⟩
      "{p path}".data "end".data) = true :=
  c5_wildcard_remainder.1 "GET".data "files/x".data 1 ⟨[], .static, [], [], []⟩
    "{p path}".data "end".data "p".data rfl (by decide)

/-- C6: a handler run through the `notFoundHandler` wrapper whose first
response-writer action is a body write ends with final status 404 (the
wrapper injects `WriteHeader(404)` before the first write), and one
whose first action explicitly sets a status ends with exactly that
status (the underlying writer keeps the first status it receives). -/
theorem c6_default_status :
    (∀ (p : Str) (rest : List HAction), runNotFound (.write p :: rest) = 404) ∧
    (∀ (code : Nat) (rest : List HAction), runNotFound (.writeHeader code :: rest) = code) := by
  constructor
  · intro p rest
    rw [runNotFound]
    rw [show List.foldl dcwStep (⟨404, false⟩, ⟨none⟩) (HAction.write p :: rest) =
      List.foldl dcwStep (⟨404, true⟩, ⟨some 404⟩) rest from rfl]
    rw [dcw_preserve rest _ _ 404 rfl]
  · intro code rest
    rw [runNotFound]
    rw [show List.foldl dcwStep (⟨404, false⟩, ⟨none⟩) (HAction.writeHeader code :: rest) =
      List.foldl dcwStep (⟨404, true⟩, ⟨some code⟩) rest from rfl]
    rw [dcw_preserve rest _ _ code rfl]

/-- C6 (witness): the two halves at the concrete traces of the
`TestNotFoundAlwaysSetsStatusCode` cases — a bare body write yields
404, an explicit 204 stays 204. -/
theorem c6_default_status_witness :
    runNotFound [.write "Test".data] = 404 ∧ runNotFound [.writeHeader 204] = 204 :=
  ⟨c6_default_status.1 "Test".data [], c6_default_status.2 204 []⟩

/-- C7: evaluating the dispatch at the failing input of
`mux_test.go` `registerTests` case 14.  With `/good/one` and
`/good/two` registered and nothing for `/good`, a `GET /good` under
the default configuration returns the **method-not-allowed** handler
(status 405), not the not-found outcome the test (and the claim)
expect: the static-branch dispatch of `mux.go` line 213 tests
`mux.options != nil || len(mux.node.handlers) > 0` — the OPTIONS hook
and the **root** node's handler map — rather than the matched node's
own handlers as the dynamic branch (line 180) does.  Disabling the
OPTIONS hook makes the same request fall through to not-found. -/
theorem c7_dispatch_behavior :
    goodMuxE = .ok goodMuxVal ∧
    muxHandler goodMuxVal (mkReq "GET".data "/good".data) =
      .methodNotAllowed (mkReq "GET".data "/good".data) ∧
    muxHandler goodMuxVal (mkReq "GET".data "/good/one".data) =
      .handler 1 ⟨"GET".data, "/good/one".data, ⟨some "good/one".data, []⟩⟩ ∧
    muxHandler goodMuxVal (mkReq "GET".data "/good/two".data) =
      .handler 2 ⟨"GET".data, "/good/two".data, ⟨some "good/two".data, []⟩⟩ ∧
    goodNoOptMuxE = .ok goodNoOptMuxVal ∧
    muxHandler goodNoOptMuxVal (mkReq "GET".data "/good".data) =
      .notFound (mkReq "GET".data "/good".data) := by
  refine ⟨goodMuxE_eq, ?_, ?_, ?_, goodNoOptMuxE_eq, ?_⟩ <;>
    simp [muxHandler, muxRoute, handlerLoop, scanChildren, dynOnlyChild,
      dispatchDynamic, dispatchStatic, Node.matchPath, addValue, withRoute, lookupH,
      cleanPath, pathClean, cleanLoop, popSeg, splitSeg, dropLeadingSlash, goodMuxVal,
      goodNoOptMuxVal, mkReq, lbrace, rbrace, defaultNotFound, defaultMethodNotAllowed]

/-- C8: for every request whose context carries the stored route
template `profile/{username string}/personal` and a present `username`
parameter — as every request matched against that route does —
re-rendering the path after overriding the parameter with `me` yields
exactly `/profile/me/personal`: static template segments are rendered
literally and the named capture is rendered from the current raw value
in the context, regardless of the original raw value. -/
theorem c8_path_withparam (r : Request)
    (hroute : r.ctx.route = some "profile/{username string}/personal".data)
    (hval : (Param r "username".data).value ≠ none) :
    Path (WithParam r "username".data "me".data) = .ok "/profile/me/personal".data := by
  obtain ⟨v, hv⟩ := Option.ne_none_iff_exists'.mp hval
  have hwp : WithParam r "username".data "me".data =
      { r with ctx := { r.ctx with params :=
        ("username".data,
          { Param r "username".data with
              value := some (.str "me".data), raw := "me".data, typ := .str }) :: r.ctx.params } } := by
    rw [WithParam]
    rw [hv]
  have hp2 : Param (WithParam r "username".data "me".data) "username".data =
      { Param r "username".data with
          value := some (.str "me".data), raw := "me".data, typ := .str } := by
    rw [hwp, Param]
    simp [List.find?]
  have hroute2 : (WithParam r "username".data "me".data).ctx.route =
      some "profile/{username string}/personal".data := by
    rw [hwp]
    exact hroute
  rw [Path, hroute2]
  simp [pathLoop, splitSeg, parseParam, recognizedTyp, lbrace, rbrace, hp2, errNoParam]

/-- C8 (witness): the mux of the profile route dispatches
`GET /profile/Whatever/personal` to handler 9 with request `c8req`,
and the theorem applied at `c8req` re-renders `/profile/me/personal`. -/
theorem c8_path_withparam_witness :
    muxHandler profileMuxVal (mkReq "GET".data "/profile/Whatever/personal".data) =
      .handler 9 c8req ∧
    Path (WithParam c8req "username".data "me".data) = .ok "/profile/me/personal".data :=
  ⟨profileMux_dispatch, c8_path_withparam c8req rfl (by decide)⟩

/-- C9 (counterexample): `Path` reads the stored route with a
single-value type assertion; on a request whose context carries no
route value at all — for example any request never dispatched to a
matched handler — the assertion panics instead of returning an error
value, refuting the claim that this failure mode is always an ordinary
error return. -/
theorem c9_panic_counterexample :
    Path (mkReq "GET".data "/x".data) =
      .panicked "interface conversion: interface is nil, not string" := rfl

/-- C9 (amended): provided the context does carry a stored route value
whose leading segments are well-formed pattern segments — which is
what dispatch stores for every matched route — `Path` never panics,
and its failures are exactly the ordinary error values `errNoRoute`
(empty stored route) and `errNoParam` (missing named capture). -/
theorem c9_no_panic_amended (r : Request) (route : Str)
    (hroute : r.ctx.route = some route) (hseg : segmentsOk route = true) :
    (∀ msg, Path r ≠ .panicked msg) ∧
    (∀ e, Path r = .err e → e = errNoRoute ∨ e = errNoParam) := by
  rw [Path, hroute]
  by_cases hre : route.isEmpty
  · simp only [hre, reduceIte]
    exact ⟨fun msg => by simp, fun e he => by simp at he; exact Or.inl he.symm⟩
  · simp only [hre, Bool.false_eq_true, reduceIte]
    obtain ⟨h1, h2⟩ := pathLoop_no_panic r (route.getLast? = some '/')
      route (dropLeadingSlash r.urlPath) [] hseg
    exact ⟨h1, fun e he => Or.inr (h2 e he)⟩

/-- C9 (witness): the amended statement applied to the request the
root-route mux dispatches (stored route value present and empty). -/
theorem c9_no_panic_witness :
    Path (⟨"GET".data, "/".data, ⟨some [], []⟩⟩ : Request) ≠ .panicked "boom" :=
  (c9_no_panic_amended ⟨"GET".data, "/".data, ⟨some [], []⟩⟩ [] rfl
    (by simp [segmentsOk, splitSeg])).1 "boom"

/-- C10: registering the root pattern `/` stores the empty string as
the root node's route template (`Handle` assigns `r = route[1:]`,
which is empty for `/`), so a request for `/` is dispatched to the
registered handler with `ctxRoute` set to the empty string, and `Path`
inside that handler returns `errNoRoute` even though a route was
matched. -/
theorem c10_root_empty_route :
    rootMuxE = .ok rootMuxVal ∧
    rootMuxVal.node.route = [] ∧
    muxHandler rootMuxVal (mkReq "GET".data "/".data) =
      .handler 3 ⟨"GET".data, "/".data, ⟨some [], []⟩⟩ ∧
    Path (⟨"GET".data, "/".data, ⟨some [], []⟩⟩ : Request) = .err errNoRoute := by
  refine ⟨rootMuxE_eq, rfl, ?_, ?_⟩ <;>
    simp [muxHandler, muxRoute, handlerLoop, scanChildren, dynOnlyChild,
      dispatchDynamic, dispatchStatic, Node.matchPath, addValue, withRoute, lookupH,
      cleanPath, pathClean, cleanLoop, popSeg, splitSeg, dropLeadingSlash, rootMuxVal,
      mkReq, Path, pathLoop, errNoRoute, lbrace, rbrace, defaultNotFound,
      defaultMethodNotAllowed]

end Mux

